import Mathlib

/-!
Verification development for the `lw_pipeline` output-management subsystem.

The repository ships only documentation, examples and packaging metadata; the
`lw_pipeline` package itself (pattern matcher, output selector, overwrite
arbiter, path builder, sidecar writer) is not part of the source tree here.
Each definition below is therefore modelled from the specification's contract
for the missing component, with names kept as in the spec.
-/

namespace LwPipeline

/-- Modelled from the spec: §4.1 Pattern Matcher (the `lw_pipeline` matcher
implementation is missing from the tree).  Fuel-indexed glob matching on
character lists: `*` matches any run of zero or more characters, every other
character matches only itself.  The fuel argument makes the recursion
structural; `pattern.length + name.length + 1` fuel always suffices. -/
def globMatchFuel : Nat → List Char → List Char → Bool
  | 0, _, _ => false
  | _ + 1, [], n => n.isEmpty
  | f + 1, p :: ps, n =>
    if p = '*' then
      match n with
      | [] => globMatchFuel f ps []
      | _ :: ns => globMatchFuel f ps n || globMatchFuel f (p :: ps) ns
    else
      match n with
      | [] => false
      | c :: ns => p == c && globMatchFuel f ps ns

/-- Modelled from the spec: §4.1 `matches(name, pattern)` — case-sensitive,
anchored to the full name, `*` is the only interpreted metacharacter. -/
def matchesName (name pattern : String) : Bool :=
  globMatchFuel (pattern.data.length + name.data.length + 1) pattern.data name.data

/-- Modelled from the spec: §3 SelectionSpec — either a flat ordered sequence
of patterns, or a mapping from step-scope key (a step short id or `"*"`) to an
ordered sequence of patterns. -/
inductive SelectionSpec where
  | flat (patterns : List String)
  | stepScoped (mapping : List (String × List String))
deriving DecidableEq

/-- The wildcard step-scope key. -/
def wildcardScope : String := "*"

/-- Modelled from the spec: §4.3 step 1 — resolve the applicable pattern list
for one spec and one step: a step-scoped spec concatenates the patterns under
the exact `step_short_id` key (if present) and then the patterns under the
wildcard `*` key (if present); a flat spec is used as-is; an absent spec
resolves to `none`. -/
def resolvePatterns : Option SelectionSpec → String → Option (List String)
  | none, _ => none
  | some (.flat ps), _ => some ps
  | some (.stepScoped m), step_short_id =>
    some (((m.lookup step_short_id).getD []) ++ ((m.lookup wildcardScope).getD []))

/-- Modelled from the spec: §3 OutputDeclaration (owner bookkeeping fields are
omitted; only the fields consulted by selection are kept). -/
structure OutputDeclaration where
  name : String
  description : String
  enabled_by_default : Bool
  group : Option String
deriving DecidableEq

/-- Modelled from the spec: §4.3 Output Selector —
`should_generate(step_short_id, output_name, declaration, generate_spec,
skip_spec)`: skip wins over everything; a supplied generate spec is exclusive
(match ⇒ true, no match ⇒ false); an absent generate spec falls back to
`declaration.enabled_by_default`. -/
def should_generate (step_short_id output_name : String)
    (declaration : OutputDeclaration)
    (generate_spec skip_spec : Option SelectionSpec) : Bool :=
  let skipList := (resolvePatterns skip_spec step_short_id).getD []
  if skipList.any (fun p => matchesName output_name p) then
    false
  else
    match resolvePatterns generate_spec step_short_id with
    | some genList => genList.any (fun p => matchesName output_name p)
    | none => declaration.enabled_by_default

/-- Metadata the model keeps per file on disk: a modification time and a byte
size. -/
structure FileInfo where
  mtime : Nat
  size : Nat
deriving DecidableEq

/-- The filesystem model: an association list from paths to file metadata
(later bindings shadow earlier ones). -/
structure Filesystem where
  files : List (String × FileInfo)
deriving DecidableEq

def Filesystem.lookup (fs : Filesystem) (path : String) : Option FileInfo :=
  fs.files.lookup path

def Filesystem.hasFile (fs : Filesystem) (path : String) : Bool :=
  (fs.lookup path).isSome

def Filesystem.writeFile (fs : Filesystem) (path : String) (info : FileInfo) :
    Filesystem :=
  ⟨(path, info) :: fs.files⟩

/-- Modelled from the spec: §3 OverwriteMode — one of
`never | always | ask | ifnewer`. -/
inductive OverwriteMode where
  | never
  | always
  | ask
  | ifnewer
deriving DecidableEq

/-- Modelled from the spec: §7 ConfigurationError — `ifnewer` requested
without a usable `source_file` (either not supplied, or not on disk). -/
inductive ConfigurationError where
  | sourceFileAbsent
  | sourceFileMissing
deriving DecidableEq

instance {ε α : Type} [DecidableEq ε] [DecidableEq α] : DecidableEq (Except ε α) := fun
  | .ok a, .ok b =>
    if h : a = b then .isTrue (by rw [h]) else .isFalse (by simp [h])
  | .error e, .error e' =>
    if h : e = e' then .isTrue (by rw [h]) else .isFalse (by simp [h])
  | .ok _, .error _ => .isFalse (by simp)
  | .error _, .ok _ => .isFalse (by simp)

/-- Modelled from the spec: §4.5 Overwrite Arbiter —
`should_write(path, mode, source_file)`.  `ignore_questions` selects the
non-interactive fallback of `ask`; `operator_answer` is the operator's reply
in the interactive case. -/
def should_write (fs : Filesystem) (path : String) (mode : OverwriteMode)
    (source_file : Option String) (ignore_questions operator_answer : Bool) :
    Except ConfigurationError Bool :=
  match mode with
  | .never => .ok (!(fs.hasFile path))
  | .always => .ok true
  | .ifnewer =>
    match source_file with
    | none => .error .sourceFileAbsent
    | some src =>
      match fs.lookup src with
      | none => .error .sourceFileMissing
      | some srcInfo =>
        match fs.lookup path with
        | none => .ok true
        | some tgtInfo => .ok (decide (tgtInfo.mtime < srcInfo.mtime))
  | .ask =>
    if fs.hasFile path then
      if ignore_questions then .ok false else .ok operator_answer
    else
      .ok true

/-- Modelled from the spec: the `overwrite_mode` configuration value defaults
to `never` when the configuration does not set it. -/
def effectiveOverwriteMode (configured : Option OverwriteMode) : OverwriteMode :=
  configured.getD .never

/-- Modelled from the spec: §6 — the configuration options consumed by the
output-management subsystem (`overwrite_mode` is optional: absent means the
configuration did not set it). -/
structure Config where
  overwrite_mode : Option OverwriteMode
  sidecar_auto_generate : Bool
  output_profiling : Bool
  ignore_questions : Bool
deriving DecidableEq

/-- Modelled from the spec: §3 structured subject/session/task-like fields of
an OutputRequest. -/
structure StructuredFields where
  subject : Option String
  session : Option String
  task : Option String
  run : Option String
deriving DecidableEq

/-- Modelled from the spec: §3 OutputRequest — one save call's path-relevant
data. -/
structure OutputRequest where
  name : String
  step_short_id : String
  suffix : Option String
  extension : String
  structured_fields : Option StructuredFields
  custom_dir : Option String
deriving DecidableEq

/-- PascalCase a snake_case name: capitalize each `_`-separated chunk and
concatenate. -/
def pascalCase (s : String) : String :=
  String.join ((s.splitOn "_").map String.capitalize)

/-- The last path component (the filename) of a `/`-separated path. -/
def fileNameOf (p : String) : String :=
  (p.splitOn "/").getLastD ""

/-- The directory prefix plus filename become a path. -/
def joinPath (dir fname : String) : String :=
  dir ++ "/" ++ fname

/-- Modelled from the spec: §4.4 Path Builder — `build_path(request)`.
Structured mode (used when subject/session/task-like fields are supplied)
delegates field assembly to the domain path convention, supplied here as the
function parameter `domainPath` (fields, description, suffix, extension ↦
path), with description `{step_short_id}{PascalCaseName}`.  Flat mode builds
`{output_root}/{step_short_id}_{name}[_{suffix}]{extension}`.  `custom_dir`,
if supplied, overrides the computed directory but not the filename. -/
def build_path
    (domainPath : StructuredFields → String → Option String → String → String)
    (output_root : String) (req : OutputRequest) : String :=
  match req.structured_fields with
  | some sf =>
    let descr := req.step_short_id ++ pascalCase req.name
    let p := domainPath sf descr req.suffix req.extension
    match req.custom_dir with
    | some d => joinPath d (fileNameOf p)
    | none => p
  | none =>
    let fname := req.step_short_id ++ "_" ++ req.name
      ++ (match req.suffix with
          | some s => "_" ++ s
          | none => "")
      ++ req.extension
    joinPath (req.custom_dir.getD output_root) fname

/-- Modelled from the spec: §3 SidecarRecord `Pipeline` block. -/
structure PipelineBlock where
  Version : String
  Step : String
  StepDescription : String
  OutputFile : String
  GeneratedAt : String
deriving DecidableEq

/-- Modelled from the spec: §3 SidecarRecord `Performance` block. -/
structure PerformanceBlock where
  Duration : String
  Timestamp : String
  FileSizeBytes : Nat
deriving DecidableEq

/-- Modelled from the spec: §3 SidecarRecord — a `Pipeline` block, an optional
`Performance` block, and custom fields merged at the top level. -/
structure SidecarRecord where
  Pipeline : PipelineBlock
  Performance : Option PerformanceBlock
  custom : List (String × String)
deriving DecidableEq

/-- Modelled from the spec: §4.6 — the fixed suffix appended to the output
path to obtain the sidecar path. -/
def sidecarSuffix : String := ".json"

/-- Modelled from the spec: §4.6 — the sidecar path is the output path with
the fixed suffix appended (never replacing the original extension). -/
def sidecar_path (output_path : String) : String :=
  output_path ++ sidecarSuffix

/-- Modelled from the spec: §4.6 Sidecar Writer — assemble the sidecar record.
Custom metadata is merged at the top level; a key collision with a reserved
block name is resolved in favor of the reserved block (the custom field is
silently dropped). -/
def make_sidecar (output_file step_short_id step_description pipeline_version
    generated_at : String) (profiling : Option PerformanceBlock)
    (custom_metadata : List (String × String)) : SidecarRecord :=
  { Pipeline :=
    { Version := pipeline_version
      Step := step_short_id
      StepDescription := step_description
      OutputFile := output_file
      GeneratedAt := generated_at }
    Performance := profiling
    custom := custom_metadata.filter
      (fun kv => kv.1 != "Pipeline" && kv.1 != "Performance") }

/-- Modelled from the spec: one save call as seen by the Output Manager, with
the artifact's prospective on-disk metadata (`new_mtime`, `new_size`). -/
structure SaveCall where
  path : String
  source_file : Option String
  new_mtime : Nat
  new_size : Nat
  step_short_id : String
  step_description : String
  generated_at : String
  duration : String
  metadata : List (String × String)
deriving DecidableEq

/-- The three user-visible outcomes of one save call: written, skipped (an
expected non-error outcome), or failed with a configuration error. -/
inductive SaveOutcome where
  | written
  | skipped
  | configError (e : ConfigurationError)
deriving DecidableEq

/-- Modelled from the spec: §4.7 Output Manager — one save call: consult the
Arbiter (under the effective overwrite mode), write on a "go" decision, then
emit the sidecar (path and record) when `sidecar_auto_generate` is enabled;
the `Performance` block is included only with `output_profiling`, its
`FileSizeBytes` measured from the filesystem after the write. -/
def save_output (cfg : Config) (pipeline_version : String) (fs : Filesystem)
    (call : SaveCall) (operator_answer : Bool) :
    Filesystem × SaveOutcome × Option (String × SidecarRecord) :=
  match should_write fs call.path (effectiveOverwriteMode cfg.overwrite_mode)
      call.source_file cfg.ignore_questions operator_answer with
  | .error e => (fs, .configError e, none)
  | .ok false => (fs, .skipped, none)
  | .ok true =>
    let fs' := fs.writeFile call.path ⟨call.new_mtime, call.new_size⟩
    let sizeOnDisk := ((fs'.lookup call.path).map FileInfo.size).getD 0
    let perf : Option PerformanceBlock :=
      if cfg.output_profiling then
        some ⟨call.duration, call.generated_at, sizeOnDisk⟩
      else
        none
    let sidecar : Option (String × SidecarRecord) :=
      if cfg.sidecar_auto_generate then
        some (sidecar_path call.path,
          make_sidecar call.path call.step_short_id call.step_description
            pipeline_version call.generated_at perf call.metadata)
      else
        none
    (fs', .written, sidecar)

/-- Modelled from the spec: §5/§7 — a step runs its save calls sequentially;
a failure of one save call is fatal for that call only, the step continues
with the remaining calls. -/
def run_step (cfg : Config) (pipeline_version : String) (fs : Filesystem)
    (calls : List SaveCall) (operator_answer : Bool) :
    Filesystem × List SaveOutcome :=
  match calls with
  | [] => (fs, [])
  | c :: cs =>
    let r := save_output cfg pipeline_version fs c operator_answer
    let rest := run_step cfg pipeline_version r.1 cs operator_answer
    (rest.1, r.2.1 :: rest.2)

/-! ### Concrete fixtures used by the witnesses -/

/-- A sample save call used by the witnesses. -/
def sampleCall : SaveCall :=
  { path := "out/00_plot.pdf"
    source_file := some "src.fif"
    new_mtime := 10
    new_size := 1234
    step_short_id := "00"
    step_description := "demo step"
    generated_at := "2025-12-11T10:30:45"
    duration := "0.2s"
    metadata := [("PlotType", "Summary")] }

/-- A configuration with `overwrite_mode = never`. -/
def sampleCfgNever : Config := ⟨some .never, true, true, false⟩

/-- A configuration that does not set `overwrite_mode`. -/
def sampleCfgUnset : Config := ⟨none, true, false, true⟩

/-- A configuration with `overwrite_mode = always`, sidecars and profiling
enabled. -/
def sampleCfgAlways : Config := ⟨some .always, true, true, false⟩

/-- An empty filesystem. -/
def emptyFs : Filesystem := ⟨[]⟩

/-- A filesystem already holding the sample target and its source. -/
def fsWithOut : Filesystem :=
  ⟨[("out/00_plot.pdf", ⟨5, 100⟩), ("src.fif", ⟨7, 50⟩)]⟩

/-- A sample flat-mode output request from step `00`. -/
def sampleReq : OutputRequest := ⟨"plot", "00", some "fig", ".pdf", none, none⟩

/-- The same request as issued by step `01`. -/
def sampleReq2 : OutputRequest := ⟨"plot", "01", some "fig", ".pdf", none, none⟩

/-- A stand-in for the domain path convention, used by the witnesses. -/
def sampleDomainPath (sf : StructuredFields) (descr : String)
    (suffix : Option String) (extension : String) : String :=
  "sub-" ++ sf.subject.getD "na" ++ "/desc-" ++ descr
    ++ (match suffix with | some s => "_" ++ s | none => "") ++ extension

/-! ### Lemmas about the pattern matcher -/

/-- With enough fuel, the single-star pattern matches every name. -/
theorem globMatchFuel_star (n : List Char) :
    ∀ fuel, n.length + 2 ≤ fuel → globMatchFuel fuel ['*'] n = true := by
  induction n with
  | nil =>
    intro fuel hf
    cases fuel with
    | zero => omega
    | succ f =>
      cases f with
      | zero => omega
      | succ g => simp [globMatchFuel]
  | cons c ns ih =>
    intro fuel hf
    cases fuel with
    | zero => omega
    | succ f =>
      have hrec : globMatchFuel f ['*'] ns = true := by
        apply ih
        simp only [List.length_cons] at hf
        omega
      simp [globMatchFuel, hrec]

/-- With enough fuel, a pattern without `*` matches exactly itself. -/
theorem globMatchFuel_noStar (p : List Char) :
    ∀ (n : List Char) (fuel : Nat), '*' ∉ p → p.length < fuel →
      (globMatchFuel fuel p n = true ↔ p = n) := by
  induction p with
  | nil =>
    intro n fuel _ hf
    cases fuel with
    | zero => omega
    | succ f => cases n <;> simp [globMatchFuel]
  | cons pc ps ih =>
    intro n fuel hs hf
    have hpc : ¬ pc = '*' := fun h => hs (h ▸ List.mem_cons_self pc ps)
    have hps : '*' ∉ ps := fun h => hs (List.mem_cons_of_mem pc h)
    cases fuel with
    | zero => omega
    | succ f =>
      have hlt : ps.length < f := by
        simp only [List.length_cons] at hf
        omega
      cases n with
      | nil => simp [globMatchFuel, hpc]
      | cons c ns =>
        have hrec := ih ns f hps hlt
        simp [globMatchFuel, hpc, hrec, and_comm]

/-- Every name matches the pattern `"*"`. -/
theorem matchesName_star (n : String) : matchesName n "*" = true := by
  unfold matchesName
  apply globMatchFuel_star
  simp
  omega

/-- A pattern without `*` matches exactly on string equality. -/
theorem matchesName_noStar (n p : String) (h : '*' ∉ p.data) :
    matchesName n p = true ↔ n = p := by
  unfold matchesName
  rw [globMatchFuel_noStar p.data n.data _ h (by omega)]
  constructor
  · intro hd
    exact (String.ext hd).symm
  · intro hd
    rw [hd]

/-- A record just written is on disk. -/
theorem Filesystem.lookup_writeFile_self (fs : Filesystem) (p : String)
    (i : FileInfo) : (fs.writeFile p i).lookup p = some i := by
  simp [Filesystem.lookup, Filesystem.writeFile, List.lookup]

/-- A record just written exists. -/
theorem Filesystem.hasFile_writeFile_self (fs : Filesystem) (p : String)
    (i : FileInfo) : (fs.writeFile p i).hasFile p = true := by
  simp [Filesystem.hasFile, Filesystem.lookup_writeFile_self]

/-- A step, running its save calls, produces one outcome per call: no save
failure aborts the remainder of the step. -/
theorem run_step_length (cfg : Config) (pipeline_version : String) :
    ∀ (calls : List SaveCall) (fs : Filesystem) (operator_answer : Bool),
      (run_step cfg pipeline_version fs calls operator_answer).2.length
        = calls.length := by
  intro calls
  induction calls with
  | nil => intro fs ans; rfl
  | cons c cs ih =>
    intro fs ans
    simp [run_step, ih]

/-! ### Claim theorems -/

/-- C1: for every step id, output name, declaration, generate spec and skip
spec, if any pattern in the resolved applicable skip list matches the output
name, `should_generate` returns `false` — even when an applicable generate
pattern also matches that name or the declaration is enabled by default. -/
theorem skip_always_wins (step_short_id output_name : String)
    (declaration : OutputDeclaration)
    (generate_spec skip_spec : Option SelectionSpec)
    (h : ∃ p ∈ (resolvePatterns skip_spec step_short_id).getD [],
      matchesName output_name p = true) :
    should_generate step_short_id output_name declaration generate_spec
      skip_spec = false := by
  obtain ⟨p, hp, hm⟩ := h
  have hany : ((resolvePatterns skip_spec step_short_id).getD []).any
      (fun p => matchesName output_name p) = true :=
    List.any_eq_true.mpr ⟨p, hp, hm⟩
  simp only [should_generate, hany, if_true]

theorem skip_always_wins_witness :
    should_generate "00" "debug_info"
      ⟨"debug_info", "debug dump", true, none⟩
      (some (.flat ["*"])) (some (.flat ["debug_*"])) = false :=
  skip_always_wins "00" "debug_info" ⟨"debug_info", "debug dump", true, none⟩
    (some (.flat ["*"])) (some (.flat ["debug_*"])) (by decide)

/-- C2: for a step-scoped spec, the resolved applicable pattern list is the
patterns under the exact step-id key (if present) followed by the patterns
under the wildcard `*` key (if present); the wildcard list is consulted in
addition to the exact-step list, so a name matched only by the wildcard list
still resolves per steps 3/4 of the selection algorithm. -/
theorem scoped_resolution_concatenates (m : List (String × List String))
    (step_short_id output_name : String) (declaration : OutputDeclaration)
    (skip_spec : Option SelectionSpec)
    (hskip : ∀ p ∈ (resolvePatterns skip_spec step_short_id).getD [],
      matchesName output_name p = false)
    (hwild : ∃ p ∈ (m.lookup wildcardScope).getD [],
      matchesName output_name p = true) :
    resolvePatterns (some (.stepScoped m)) step_short_id
      = some (((m.lookup step_short_id).getD [])
          ++ ((m.lookup wildcardScope).getD []))
    ∧ should_generate step_short_id output_name declaration
        (some (.stepScoped m)) skip_spec = true := by
  constructor
  · rfl
  · obtain ⟨p, hp, hm⟩ := hwild
    have hnoskip : ((resolvePatterns skip_spec step_short_id).getD []).any
        (fun p => matchesName output_name p) = false := by
      rw [List.any_eq_false]
      intro q hq
      simp [hskip q hq]
    have hgen : (((m.lookup step_short_id).getD [])
        ++ ((m.lookup wildcardScope).getD [])).any
        (fun p => matchesName output_name p) = true :=
      List.any_eq_true.mpr ⟨p, List.mem_append_right _ hp, hm⟩
    have hres : resolvePatterns (some (.stepScoped m)) step_short_id
        = some (((m.lookup step_short_id).getD [])
            ++ ((m.lookup wildcardScope).getD [])) := rfl
    simp only [should_generate, hnoskip, Bool.false_eq_true, if_false, hres,
      hgen]

theorem scoped_resolution_concatenates_witness :
    resolvePatterns (some (.stepScoped [("01", ["raw"]), ("*", ["*plot*"])])) "00"
      = some ((([("01", ["raw"]), ("*", ["*plot*"])].lookup "00").getD [])
          ++ (([("01", ["raw"]), ("*", ["*plot*"])].lookup wildcardScope).getD []))
    ∧ should_generate "00" "summary_plot" ⟨"summary_plot", "plot", false, none⟩
        (some (.stepScoped [("01", ["raw"]), ("*", ["*plot*"])])) none = true :=
  scoped_resolution_concatenates [("01", ["raw"]), ("*", ["*plot*"])] "00"
    "summary_plot" ⟨"summary_plot", "plot", false, none⟩ none
    (by decide) (by decide)

/-- C3: `should_generate` distinguishes a supplied-but-unmatched generate spec
from an absent one: a supplied spec whose resolved list matches nothing yields
`false`; an absent spec (with no skip match) yields
`declaration.enabled_by_default`. -/
theorem supplied_vs_absent_generate_spec (step_short_id output_name : String)
    (declaration : OutputDeclaration) (gspec : SelectionSpec)
    (skip_spec : Option SelectionSpec)
    (hskip : ∀ p ∈ (resolvePatterns skip_spec step_short_id).getD [],
      matchesName output_name p = false) :
    ((∀ p ∈ (resolvePatterns (some gspec) step_short_id).getD [],
        matchesName output_name p = false) →
      should_generate step_short_id output_name declaration (some gspec)
        skip_spec = false)
    ∧ should_generate step_short_id output_name declaration none skip_spec
        = declaration.enabled_by_default := by
  have hnoskip : ((resolvePatterns skip_spec step_short_id).getD []).any
      (fun p => matchesName output_name p) = false := by
    rw [List.any_eq_false]
    intro q hq
    simp [hskip q hq]
  constructor
  · intro hgen
    have hres : ∃ l, resolvePatterns (some gspec) step_short_id = some l := by
      cases gspec with
      | flat ps => exact ⟨ps, rfl⟩
      | stepScoped m => exact ⟨_, rfl⟩
    obtain ⟨l, hl⟩ := hres
    have hany : l.any (fun p => matchesName output_name p) = false := by
      rw [List.any_eq_false]
      intro q hq
      have := hgen q (by rw [hl]; exact hq)
      simp [this]
    simp only [should_generate, hnoskip, Bool.false_eq_true, if_false, hl, hany]
  · have hres0 : resolvePatterns none step_short_id
        = (none : Option (List String)) := rfl
    simp only [should_generate, hnoskip, Bool.false_eq_true, if_false, hres0]

theorem supplied_vs_absent_generate_spec_witness :
    ((∀ p ∈ (resolvePatterns (some (.flat ["raw_*"])) "00").getD [],
        matchesName "summary_plot" p = false) →
      should_generate "00" "summary_plot" ⟨"summary_plot", "plot", true, none⟩
        (some (.flat ["raw_*"])) none = false)
    ∧ should_generate "00" "summary_plot" ⟨"summary_plot", "plot", true, none⟩
        none none = (⟨"summary_plot", "plot", true, none⟩ :
          OutputDeclaration).enabled_by_default :=
  supplied_vs_absent_generate_spec "00" "summary_plot"
    ⟨"summary_plot", "plot", true, none⟩ (.flat ["raw_*"]) none (by decide)

/-- C4: `matches(n, "*")` is true for every name `n`, and a pattern `p`
containing no `*` wildcard matches `n` exactly when `n` equals `p`
(case-sensitive, anchored, no substring matching). -/
theorem pattern_matcher_star_and_literal (n p : String) (h : '*' ∉ p.data) :
    matchesName n "*" = true ∧ (matchesName n p = true ↔ n = p) :=
  ⟨matchesName_star n, matchesName_noStar n p h⟩

theorem pattern_matcher_star_and_literal_witness :
    matchesName "summary_plot" "*" = true
    ∧ (matchesName "summary_plot" "summary" = true
        ↔ ("summary_plot" : String) = "summary") :=
  pattern_matcher_star_and_literal "summary_plot" "summary" (by decide)

/-- C5: with overwrite mode `never`, `should_write(path)` is true iff the
path does not already exist; consequently the same save call, invoked twice
against an unchanged filesystem, writes the artifact exactly once, and the
second invocation is a skip (not an error) that leaves the filesystem
unchanged. -/
theorem overwrite_never_idempotent (cfg : Config) (pipeline_version : String)
    (fs : Filesystem) (call : SaveCall) (operator_answer : Bool)
    (hmode : cfg.overwrite_mode = some .never)
    (habsent : fs.hasFile call.path = false) :
    should_write fs call.path .never call.source_file cfg.ignore_questions
        operator_answer = .ok (!(fs.hasFile call.path))
    ∧ (save_output cfg pipeline_version fs call operator_answer).2.1 = .written
    ∧ (save_output cfg pipeline_version
        (save_output cfg pipeline_version fs call operator_answer).1 call
        operator_answer).2.1 = .skipped
    ∧ (save_output cfg pipeline_version
        (save_output cfg pipeline_version fs call operator_answer).1 call
        operator_answer).1
      = (save_output cfg pipeline_version fs call operator_answer).1 := by
  refine ⟨rfl, ?_, ?_, ?_⟩
  · simp [save_output, should_write, effectiveOverwriteMode, hmode, habsent]
  · have hfs1 : (save_output cfg pipeline_version fs call operator_answer).1
        = fs.writeFile call.path ⟨call.new_mtime, call.new_size⟩ := by
      simp [save_output, should_write, effectiveOverwriteMode, hmode, habsent]
    rw [hfs1]
    simp [save_output, should_write, effectiveOverwriteMode, hmode,
      Filesystem.hasFile_writeFile_self]
  · have hfs1 : (save_output cfg pipeline_version fs call operator_answer).1
        = fs.writeFile call.path ⟨call.new_mtime, call.new_size⟩ := by
      simp [save_output, should_write, effectiveOverwriteMode, hmode, habsent]
    rw [hfs1]
    simp [save_output, should_write, effectiveOverwriteMode, hmode,
      Filesystem.hasFile_writeFile_self]

/-- C6: with overwrite mode `ifnewer`, `should_write` fails with a
`ConfigurationError` iff `source_file` is absent or the source file is
missing on disk; otherwise it returns true iff the target path does not exist
or the source's modification time is strictly later than the target's; an
error is fatal only for that save call — the step continues and produces one
outcome per save call. -/
theorem ifnewer_error_and_timestamp (fs : Filesystem) (path : String)
    (source_file : Option String) (ignore_questions operator_answer : Bool) :
    ((∃ e, should_write fs path .ifnewer source_file ignore_questions
        operator_answer = .error e)
      ↔ (source_file = none
         ∨ ∃ s, source_file = some s ∧ fs.lookup s = none))
    ∧ (∀ s srcInfo, source_file = some s → fs.lookup s = some srcInfo →
        (should_write fs path .ifnewer source_file ignore_questions
            operator_answer = .ok true
          ↔ (fs.lookup path = none
             ∨ ∃ tgtInfo, fs.lookup path = some tgtInfo
                ∧ tgtInfo.mtime < srcInfo.mtime)))
    ∧ (∀ (cfg : Config) (pipeline_version : String) (calls : List SaveCall)
        (ans : Bool),
        (run_step cfg pipeline_version fs calls ans).2.length = calls.length) := by
  refine ⟨?_, ?_, ?_⟩
  · cases hsf : source_file with
    | none => simp [should_write]
    | some s =>
      cases hl : fs.lookup s with
      | none => simp [should_write, hl]
      | some srcInfo =>
        cases hp : fs.lookup path with
        | none => simp [should_write, hl, hp]
        | some tgtInfo => simp [should_write, hl, hp]
  · intro s srcInfo hsf hl
    subst hsf
    cases hp : fs.lookup path with
    | none => simp [should_write, hl, hp]
    | some tgtInfo => simp [should_write, hl, hp]
  · intro cfg pipeline_version calls ans
    exact run_step_length cfg pipeline_version calls fs ans

/-- C7: with overwrite mode `ask` under the ignore-questions (non-interactive)
execution mode, `should_write` never raises and never prompts: it returns
true for a target that does not exist and the fixed default answer — treated
as `never`, i.e. false — for an existing target, independent of any operator
answer. -/
theorem ask_noninteractive_default (fs : Filesystem) (path : String)
    (source_file : Option String) (operator_answer : Bool) :
    should_write fs path .ask source_file true operator_answer
      = .ok (!(fs.hasFile path)) := by
  unfold should_write
  cases h : fs.hasFile path <;> simp [h]

/-- C10: when the configuration does not set `overwrite_mode`, the Overwrite
Arbiter defaults to `never`: a save call whose target path already exists is
skipped (leaving the filesystem unchanged), and a write proceeds only when
the target does not yet exist. -/
theorem default_overwrite_mode_never (cfg : Config) (pipeline_version : String)
    (fs : Filesystem) (call : SaveCall) (operator_answer : Bool)
    (hunset : cfg.overwrite_mode = none) :
    effectiveOverwriteMode cfg.overwrite_mode = .never
    ∧ (fs.hasFile call.path = true →
        (save_output cfg pipeline_version fs call operator_answer).2.1
            = .skipped
        ∧ (save_output cfg pipeline_version fs call operator_answer).1 = fs)
    ∧ (fs.hasFile call.path = false →
        (save_output cfg pipeline_version fs call operator_answer).2.1
          = .written) := by
  refine ⟨by rw [hunset]; rfl, ?_, ?_⟩
  · intro hex
    constructor <;>
      simp [save_output, should_write, effectiveOverwriteMode, hunset, hex]
  · intro hex
    simp [save_output, should_write, effectiveOverwriteMode, hunset, hex]

theorem overwrite_never_idempotent_witness :
    should_write emptyFs sampleCall.path .never sampleCall.source_file
        sampleCfgNever.ignore_questions false
      = .ok (!(emptyFs.hasFile sampleCall.path))
    ∧ (save_output sampleCfgNever "v1" emptyFs sampleCall false).2.1 = .written
    ∧ (save_output sampleCfgNever "v1"
        (save_output sampleCfgNever "v1" emptyFs sampleCall false).1 sampleCall
        false).2.1 = .skipped
    ∧ (save_output sampleCfgNever "v1"
        (save_output sampleCfgNever "v1" emptyFs sampleCall false).1 sampleCall
        false).1
      = (save_output sampleCfgNever "v1" emptyFs sampleCall false).1 :=
  overwrite_never_idempotent sampleCfgNever "v1" emptyFs sampleCall false
    rfl (by decide)

theorem ifnewer_error_and_timestamp_witness :
    ((∃ e, should_write fsWithOut "out/00_plot.pdf" .ifnewer (some "src.fif")
        false false = .error e)
      ↔ ((some "src.fif" : Option String) = none
         ∨ ∃ s, (some "src.fif" : Option String) = some s
            ∧ fsWithOut.lookup s = none))
    ∧ (∀ s srcInfo, (some "src.fif" : Option String) = some s →
        fsWithOut.lookup s = some srcInfo →
        (should_write fsWithOut "out/00_plot.pdf" .ifnewer (some "src.fif")
            false false = .ok true
          ↔ (fsWithOut.lookup "out/00_plot.pdf" = none
             ∨ ∃ tgtInfo, fsWithOut.lookup "out/00_plot.pdf" = some tgtInfo
                ∧ tgtInfo.mtime < srcInfo.mtime)))
    ∧ (∀ (cfg : Config) (pipeline_version : String) (calls : List SaveCall)
        (ans : Bool),
        (run_step cfg pipeline_version fsWithOut calls ans).2.length
          = calls.length) :=
  ifnewer_error_and_timestamp fsWithOut "out/00_plot.pdf" (some "src.fif")
    false false

theorem default_overwrite_mode_never_witness :
    effectiveOverwriteMode sampleCfgUnset.overwrite_mode = .never
    ∧ (fsWithOut.hasFile sampleCall.path = true →
        (save_output sampleCfgUnset "v1" fsWithOut sampleCall false).2.1
            = .skipped
        ∧ (save_output sampleCfgUnset "v1" fsWithOut sampleCall false).1
            = fsWithOut)
    ∧ (fsWithOut.hasFile sampleCall.path = false →
        (save_output sampleCfgUnset "v1" fsWithOut sampleCall false).2.1
          = .written) :=
  default_overwrite_mode_never sampleCfgUnset "v1" fsWithOut sampleCall false
    rfl

/-- In flat mode the built path is the output root, a separator, and the
step-prefixed filename. -/
theorem build_path_flat
    (domainPath : StructuredFields → String → Option String → String → String)
    (output_root : String) (req : OutputRequest)
    (hflat : req.structured_fields = none) (hdir : req.custom_dir = none) :
    build_path domainPath output_root req
      = output_root ++ "/" ++ req.step_short_id ++ "_" ++ req.name
        ++ (match req.suffix with | some s => "_" ++ s | none => "")
        ++ req.extension := by
  apply String.ext
  simp [build_path, joinPath, hflat, hdir, String.data_append, List.append_assoc]

/-- C8: in flat mode (no structured subject/session/task fields and no custom
directory), `build_path` returns
`{output_root}/{step_short_id}_{name}[_{suffix}]{extension}`; since the base
name starts with the owning step's short identifier, two steps with short
identifiers of the same length but different content never collide on an
output name they share. -/
theorem flat_path_shape_and_uniqueness
    (domainPath : StructuredFields → String → Option String → String → String)
    (output_root : String) (req : OutputRequest)
    (hflat : req.structured_fields = none) (hdir : req.custom_dir = none) :
    build_path domainPath output_root req
      = output_root ++ "/" ++ req.step_short_id ++ "_" ++ req.name
        ++ (match req.suffix with | some s => "_" ++ s | none => "")
        ++ req.extension
    ∧ ∀ req2 : OutputRequest, req2.structured_fields = none →
        req2.custom_dir = none → req2.name = req.name →
        req2.suffix = req.suffix → req2.extension = req.extension →
        req2.step_short_id.length = req.step_short_id.length →
        req2.step_short_id ≠ req.step_short_id →
        build_path domainPath output_root req2
          ≠ build_path domainPath output_root req := by
  refine ⟨build_path_flat domainPath output_root req hflat hdir, ?_⟩
  intro req2 hflat2 hdir2 hname hsuffix hext hlen hne heq
  rw [build_path_flat domainPath output_root req hflat hdir,
    build_path_flat domainPath output_root req2 hflat2 hdir2,
    hname, hsuffix, hext] at heq
  have hdata := congrArg String.data heq
  simp only [String.data_append, List.append_assoc] at hdata
  have h1 := List.append_cancel_left hdata
  have h2 := List.append_cancel_left h1
  have h3 : req2.step_short_id.data = req.step_short_id.data :=
    (List.append_inj h2 hlen).1
  exact hne (String.ext h3)

theorem flat_path_shape_and_uniqueness_witness :
    build_path sampleDomainPath "out" sampleReq
      = "out" ++ "/" ++ sampleReq.step_short_id ++ "_" ++ sampleReq.name
        ++ (match sampleReq.suffix with | some s => "_" ++ s | none => "")
        ++ sampleReq.extension
    ∧ build_path sampleDomainPath "out" sampleReq2
        ≠ build_path sampleDomainPath "out" sampleReq :=
  ⟨(flat_path_shape_and_uniqueness sampleDomainPath "out" sampleReq rfl rfl).1,
   (flat_path_shape_and_uniqueness sampleDomainPath "out" sampleReq rfl rfl).2
     sampleReq2 rfl rfl rfl rfl rfl rfl (by decide)⟩

/-- C9: every successful save with `sidecar_auto_generate` enabled emits a
sidecar at the output path with the fixed suffix appended (the output path
stays a prefix — the original extension is never replaced), whose record
carries `Pipeline.Step`, `Pipeline.OutputFile` and `Pipeline.GeneratedAt`;
with profiling enabled it additionally carries `Performance.FileSizeBytes`
equal to the artifact's byte size on disk after the write. -/
theorem sidecar_on_successful_save (cfg : Config) (pipeline_version : String)
    (fs : Filesystem) (call : SaveCall) (operator_answer : Bool)
    (hsc : cfg.sidecar_auto_generate = true)
    (hok : should_write fs call.path (effectiveOverwriteMode cfg.overwrite_mode)
      call.source_file cfg.ignore_questions operator_answer = .ok true) :
    ∃ sc : SidecarRecord,
      (save_output cfg pipeline_version fs call operator_answer).2.2
          = some (sidecar_path call.path, sc)
      ∧ sidecar_path call.path = call.path ++ ".json"
      ∧ call.path.data <+: (sidecar_path call.path).data
      ∧ sc.Pipeline.Step = call.step_short_id
      ∧ sc.Pipeline.OutputFile = call.path
      ∧ sc.Pipeline.GeneratedAt = call.generated_at
      ∧ (cfg.output_profiling = true →
          ∃ pb : PerformanceBlock, sc.Performance = some pb
            ∧ ((save_output cfg pipeline_version fs call
                operator_answer).1.lookup call.path).map FileInfo.size
              = some pb.FileSizeBytes) := by
  have hfs1 : (save_output cfg pipeline_version fs call operator_answer).1
      = fs.writeFile call.path ⟨call.new_mtime, call.new_size⟩ := by
    simp [save_output, hok]
  refine ⟨make_sidecar call.path call.step_short_id call.step_description
    pipeline_version call.generated_at
    (if cfg.output_profiling then
      some ⟨call.duration, call.generated_at,
        (((fs.writeFile call.path ⟨call.new_mtime, call.new_size⟩).lookup
          call.path).map FileInfo.size).getD 0⟩
    else none) call.metadata, ?_, rfl, ?_, rfl, rfl, rfl, ?_⟩
  · simp [save_output, hok, hsc]
  · rw [show sidecar_path call.path = call.path ++ ".json" from rfl,
      String.data_append]
    exact List.prefix_append _ _
  · intro hp
    refine ⟨⟨call.duration, call.generated_at,
      (((fs.writeFile call.path ⟨call.new_mtime, call.new_size⟩).lookup
        call.path).map FileInfo.size).getD 0⟩, ?_, ?_⟩
    · simp [make_sidecar, hp]
    · rw [hfs1]
      simp [Filesystem.lookup_writeFile_self]

theorem sidecar_on_successful_save_witness :
    ∃ sc : SidecarRecord,
      (save_output sampleCfgAlways "v1" fsWithOut sampleCall false).2.2
          = some (sidecar_path sampleCall.path, sc)
      ∧ sidecar_path sampleCall.path = sampleCall.path ++ ".json"
      ∧ sampleCall.path.data <+: (sidecar_path sampleCall.path).data
      ∧ sc.Pipeline.Step = sampleCall.step_short_id
      ∧ sc.Pipeline.OutputFile = sampleCall.path
      ∧ sc.Pipeline.GeneratedAt = sampleCall.generated_at
      ∧ (sampleCfgAlways.output_profiling = true →
          ∃ pb : PerformanceBlock, sc.Performance = some pb
            ∧ ((save_output sampleCfgAlways "v1" fsWithOut sampleCall
                false).1.lookup sampleCall.path).map FileInfo.size
              = some pb.FileSizeBytes) :=
  sidecar_on_successful_save sampleCfgAlways "v1" fsWithOut sampleCall false
    rfl rfl

end LwPipeline
